import Mathlib

/-!
Shallow embedding of the yurthub request-interception pipeline
(`pkg/yurthub/proxy/util/util.go`) and the pod-environment object filter
(`pkg/yurthub/filter/podenvupdater`), together with proofs about the
middleware stages: partial-metadata negotiation, cache-header handling,
selector extraction, client-component extraction, max-in-flight admission
control, request-timeout adjustment, and service-account token
substitution.

Conventions of the embedding:
* Go strings are Lean `String`s; `strings.Contains` is `strContains`.
* `http.Header` is an association list `List (String × String)` with
  first-match lookup (`headerGet`) and key deletion (`headerDel`).
  Canonical-case normalization of header keys is not modelled; keys are
  used verbatim, as every call site uses a fixed literal key.
* The request context (`context.Context`) value bag is an append-only
  association list; storing a key prepends it.
* `RequestInfo` captures the fields of `apirequest.RequestInfo` that the
  embedded stages read.  A request with no attached request info is the
  `none` case of `Option RequestInfo`.
* External collaborators (the JWT parser, `serviceaccount.SplitUsername`,
  the list-options parameter codec, `goautoneg.ParseAccept`) are passed in
  as already-computed results or as oracle functions: the stages under
  proof only branch on their outcomes.
-/

/-- Test that `pat` is an initial segment of `s` (character lists). -/
def listHasPfx : List Char → List Char → Bool
  | _, [] => true
  | [], _ :: _ => false
  | a :: as, b :: bs => a == b && listHasPfx as bs

/-- Test that `pat` occurs contiguously somewhere in `s` (character lists). -/
def listHasSub (s pat : List Char) : Bool :=
  match s with
  | [] => pat.isEmpty
  | _ :: rest => listHasPfx s pat || listHasSub rest pat

/-- Go `strings.Contains s pat`: `pat` occurs as a substring of `s`
(`Contains s "" = true`). -/
def strContains (s pat : String) : Bool :=
  if pat = "" then true else listHasSub s.data pat.data

/-- The ASCII fragment of Go `strings.ToLower` (character-wise
lowering).  It is used where only ASCII comparisons matter (the
`Edge-Cache` value check against `"true"`: no character outside a-z
lower-cases into that word), and as a concrete instance of the
`strings.ToLower` oracle on ASCII inputs. -/
def strToLower (s : String) : String := ⟨s.data.map Char.toLower⟩

/-- Recursion for `strSplitOnSlash` over the character list. -/
def splitOnSlashAux : List Char → List (List Char)
  | [] => [[]]
  | c :: rest =>
    let r := splitOnSlashAux rest
    if c = '/' then [] :: r
    else
      match r with
      | h :: t => (c :: h) :: t
      | [] => [[c]]

/-- Go `strings.Split s "/"`: the substrings between slashes, in order;
always non-empty (a string with no slash yields the one-element list of
itself). -/
def strSplitOnSlash (s : String) : List String :=
  (splitOnSlashAux s.data).map (fun l => ⟨l⟩)

/-- First-match lookup in an association-list header map, Go
`http.Header.Get` (returns `""` when the key is absent). -/
def headerGet (hs : List (String × String)) (k : String) : String :=
  match hs.find? (fun p => p.1 == k) with
  | some p => p.2
  | none => ""

/-- Go `http.Header.Del`: remove every entry stored under the key. -/
def headerDel (hs : List (String × String)) (k : String) : List (String × String) :=
  hs.filter (fun p => p.1 != k)

/-- Storing a derived fact in the request context: the carrier is an
append-only bag, so a store prepends the pair. -/
def ctxSet (ctx : List (String × String)) (k v : String) : List (String × String) :=
  (k, v) :: ctx

/-- First-match context lookup (`none` when the key was never stored). -/
def ctxGet (ctx : List (String × String)) (k : String) : Option String :=
  match ctx.find? (fun p => p.1 == k) with
  | some p => some p.2
  | none => none

/-- The fields of `apirequest.RequestInfo` read by the embedded stages. -/
structure RequestInfo where
  isResourceRequest : Bool
  verb : String
  resource : String
  subresource : String
  name : String
  apiGroup : String
  apiVersion : String
deriving DecidableEq, Repr

/-- Model of `schema.GroupVersionKind`. -/
structure GroupVersionKind where
  group : String
  version : String
  kind : String
deriving DecidableEq, Repr

/-- Embedding of `ensureValidGroupAndVersion` (util.go): normalizes the group to
`meta.k8s.io` when the raw group contains it, then normalizes the version
by substring match — the `v1` case is tested first, the `v1beta1` case
second, exactly as in the source `switch`.  `none` models the error
return (the caller then leaves the context unchanged). -/
def ensureValidGroupAndVersion (gvk : GroupVersionKind) : Option GroupVersionKind :=
  if strContains gvk.group "meta.k8s.io" then
    let gvk1 := { gvk with group := "meta.k8s.io" }
    if strContains gvk1.version "v1" then
      some { gvk1 with version := "v1" }
    else if strContains gvk1.version "v1beta1" then
      some { gvk1 with version := "v1beta1" }
    else
      none
  else
    none

/-- Embedding of `WithPartialObjectMetadataRequest` (util.go).  `clauses` is the result
of `goautoneg.ParseAccept` on the Accept header, each clause reduced to
its `g`/`v`/`as` parameters (a missing parameter is `""`, as Go map lookup
yields the zero value).  The return value is the convert-GVK override
stored in the request context (`none` when nothing is stored). -/
def withPartialObjectMetadataRequest (info : Option RequestInfo)
    (clauses : List (String × String × String)) : Option GroupVersionKind :=
  match info with
  | none => none
  | some i =>
    if i.isResourceRequest then
      let gvk : GroupVersionKind :=
        match clauses with
        | (g, v, a) :: _ => { group := g, version := v, kind := a }
        | [] => { group := "", version := "", kind := "" }
      if gvk.kind == "PartialObjectMetadataList" || gvk.kind == "PartialObjectMetadata" then
        ensureValidGroupAndVersion gvk
      else
        none
    else
      none

/-! ## Admission control: `WithMaxInFlightLimit` -/

/-- Shared mutable state of `WithMaxInFlightLimit`: the two bounded
channels are modelled by their buffered-element counts, and the two
rejection metrics counters are carried alongside. -/
structure GateState where
  ordinaryInFlight : Nat
  multiplexerInFlight : Nat
  rejectedOrdinary : Nat
  rejectedMultiplexer : Nat
deriving DecidableEq, Repr

/-- Outcome of the admission stage for one request: whether the wrapped
handler was invoked, and the terminal response data when it was not. -/
structure AdmissionResult where
  handlerInvoked : Bool
  status : Option Nat
  retryAfter : Option String
deriving DecidableEq, Repr

/-- Capacity of the ordinary request channel: `reqChan` is allocated with
capacity `limit` only when `limit > 0`; otherwise it stays `nil`. -/
def ordinaryCap (limit : Int) : Option Nat :=
  if limit > 0 then some limit.toNat else none

/-- Capacity of the pool-scope (multiplexer) channel, fixed in the source. -/
def multiplexerCap : Nat := 4096

/-- A non-blocking send (`select` with a `default` arm) on a buffered
channel: ready exactly when the channel exists and its buffer has room.
A send on a `nil` channel is never ready, so the `default` arm fires. -/
def trySend (cap : Option Nat) (buffered : Nat) : Bool :=
  match cap with
  | some c => buffered < c
  | none => false

/-- Entry of `WithMaxInFlightLimit` for one request: attempts the
non-blocking send on the channel selected by the pool-scope flag; on
success the request is admitted (handler invoked with the slot held), on
failure the stage responds 429 with `Retry-After: 1` and bumps the
pool-specific rejection counter. -/
def withMaxInFlightEnter (limit : Int) (isPoolScope : Bool) (s : GateState) :
    GateState × AdmissionResult :=
  if isPoolScope then
    if trySend (some multiplexerCap) s.multiplexerInFlight then
      ({ s with multiplexerInFlight := s.multiplexerInFlight + 1 },
       { handlerInvoked := true, status := none, retryAfter := none })
    else
      ({ s with rejectedMultiplexer := s.rejectedMultiplexer + 1 },
       { handlerInvoked := false, status := some 429, retryAfter := some "1" })
  else
    if trySend (ordinaryCap limit) s.ordinaryInFlight then
      ({ s with ordinaryInFlight := s.ordinaryInFlight + 1 },
       { handlerInvoked := true, status := none, retryAfter := none })
    else
      ({ s with rejectedOrdinary := s.rejectedOrdinary + 1 },
       { handlerInvoked := false, status := some 429, retryAfter := some "1" })

/-- The deferred release run when an admitted request completes by any
exit path: one receive from the channel that was sent on. -/
def withMaxInFlightExit (isPoolScope : Bool) (s : GateState) : GateState :=
  if isPoolScope then
    { s with multiplexerInFlight := s.multiplexerInFlight - 1 }
  else
    { s with ordinaryInFlight := s.ordinaryInFlight - 1 }

/-! ## Timeout adjustment: `WithRequestTimeout` -/

/-- Constant `watchTimeoutMargin` (util.go). -/
def watchTimeoutMargin : Int := 15

/-- Constant `getAndListTimeoutReduce` (util.go). -/
def getAndListTimeoutReduce : Int := 2

/-- One second in nanoseconds (`time.Second`); Go durations are `int64`
nanosecond counts. -/
def secondNs : Int := 1000000000

/-- Magnitude bound of signed 64-bit integers (two to the 63rd). -/
def int64Half : Int := 9223372036854775808

/-- Wrap-around of Go signed 64-bit arithmetic (`int64`,
`time.Duration`): reduce into the interval from `-int64Half` (included)
up to `int64Half` (excluded). -/
def wrap64 (n : Int) : Int := (n + int64Half) % (2 * int64Half) - int64Half

/-- The value fits a signed 64-bit integer, so `wrap64` leaves it
unchanged. -/
def inInt64 (n : Int) : Prop := -int64Half ≤ n ∧ n < int64Half

instance (n : Int) : Decidable (inInt64 n) :=
  inferInstanceAs (Decidable (-int64Half ≤ n ∧ n < int64Half))

/-- Embedding of `needModifyTimeoutVerb` (util.go). -/
def needModifyTimeoutVerb (verb : String) : Bool :=
  verb == "get" || verb == "list" || verb == "watch"

/-- The `TimeoutSeconds` field of the decoded
`metainternalversion.ListOptions` (a `*int64`). -/
structure ListOptions where
  timeoutSeconds : Option Int
deriving DecidableEq, Repr

/-- Outcome of `WithRequestTimeout` for one request: either the stage
terminates with a 400 bad-request response, or it installs a cancellable
deadline of the given duration (nanoseconds) on the request context, or
it installs nothing. -/
inductive TimeoutOutcome where
  | badRequest
  | deadline (ns : Int)
  | noDeadline
deriving DecidableEq, Repr

/-- Embedding of `WithRequestTimeout` (util.go).  `optsDecode` is the result of
`ParameterCodec.DecodeParameters` on the query for list/watch requests
(`none` models a decode error); its `timeoutSeconds` is a decoded
`int64`.  `getTimeoutParam` is the `time.ParseDuration` result
(nanoseconds, an `int64`) of the first `timeout` query value for a plain
get (`none` when the parameter is absent or fails to parse).  Go
duration arithmetic is signed 64-bit and wraps, so `wrap64` is applied
at each arithmetic step: the sum `TimeoutSeconds + margin` (or the
difference), and the multiplication by `time.Second`; the get-path
subtraction is guarded by `t > 2s` but is wrapped for fidelity on
out-of-range inputs.  In Go, `var timeout time.Duration` starts at zero
and a deadline is installed only when the computed timeout is
positive. -/
def withRequestTimeout (info : Option RequestInfo) (optsDecode : Option ListOptions)
    (getTimeoutParam : Option Int) : TimeoutOutcome :=
  match info with
  | none => .noDeadline
  | some i =>
    if i.isResourceRequest && needModifyTimeoutVerb i.verb then
      if i.verb == "list" || i.verb == "watch" then
        match optsDecode with
        | none => .badRequest
        | some opts =>
          let timeout : Int :=
            match opts.timeoutSeconds with
            | some t =>
              if i.verb == "watch" then
                wrap64 (wrap64 (t + watchTimeoutMargin) * secondNs)
              else if t > getAndListTimeoutReduce then
                wrap64 (wrap64 (t - getAndListTimeoutReduce) * secondNs)
              else 0
            | none => 0
          if timeout > 0 then .deadline timeout else .noDeadline
      else if i.verb == "get" then
        let timeout : Int :=
          match getTimeoutParam with
          | some t =>
            if t > getAndListTimeoutReduce * secondNs then
              wrap64 (t - getAndListTimeoutReduce * secondNs)
            else 0
          | none => 0
        if timeout > 0 then .deadline timeout else .noDeadline
      else .noDeadline
    else .noDeadline

/-! ## Cache directive: `WithCacheHeaderCheck` -/

/-- Constant `canCacheHeader` (util.go). -/
def canCacheHeader : String := "Edge-Cache"

/-- Context key under which `util.WithReqCanCache` stores the can-cache
flag. -/
def reqCanCacheKey : String := "req-can-cache"

/-- Embedding of `WithCacheHeaderCheck` (util.go): for resource requests, reads the
`Edge-Cache` header, stores the can-cache flag in the context when its
lower-cased value is `"true"`, and deletes the header in every case.
Returns the forwarded headers and context. -/
def withCacheHeaderCheck (info : Option RequestInfo)
    (hs ctx : List (String × String)) :
    List (String × String) × List (String × String) :=
  match info with
  | none => (hs, ctx)
  | some i =>
    if i.isResourceRequest then
      let needToCache := strToLower (headerGet hs canCacheHeader)
      let ctx1 := if needToCache == "true" then ctxSet ctx reqCanCacheKey "true" else ctx
      (headerDel hs canCacheHeader, ctx1)
    else
      (hs, ctx)

/-! ## Selector extraction: `selectorString` and `WithListRequestSelector` -/

/-- Embedding of `selectorString` (util.go).  A `labels.Selector` / `fields.Selector`
is modelled by the `Option` of its `String()` rendering: `none` is the
`nil` interface (rendered `""`), `some s` a non-nil selector rendering to
`s` (possibly `""`, e.g. the everything selector). -/
def selectorString (lSelector fSelector : Option String) : String :=
  let ls := match lSelector with | some s => s | none => ""
  let fs := match fSelector with | some s => s | none => ""
  if ls != "" && fs != "" then String.intercalate "&" [ls, fs]
  else if ls != "" then ls
  else if fs != "" then fs
  else ""

/-- Embedding of `WithListRequestSelector` (util.go): for collection list requests
(resource request, verb `list`, empty target name) with successfully
decoded list options, stores the non-empty selector string in the
context.  `decoded` is the codec result: `none` models a decode error,
`some (l, f)` carries the decoded label and field selectors.  The return
value is the selector string stored in the context (`none` when nothing
is stored). -/
def withListRequestSelector (info : Option RequestInfo)
    (decoded : Option (Option String × Option String)) : Option String :=
  match info with
  | none => none
  | some i =>
    if i.isResourceRequest && i.verb == "list" && i.name == "" then
      match decoded with
      | none => none
      | some (l, f) =>
        let str := selectorString l f
        if str != "" then some str else none
    else none

/-! ## Client component: `WithRequestClientComponent` -/

/-- Constant `util.WorkingModeEdge`; the `util.WorkingMode` type is a string type. -/
def workingModeEdge : String := "edge"

/-- One element of `path/filepath.Clean` processing (Unix separator, as
the proxy targets Linux).  The element-stack formulation of the lazybuf
algorithm: empty and `.` elements are dropped; `..` pops the most recent
pushed element, is dropped at the root of a rooted path, and is kept
otherwise (on top of a stack that is empty or all `..`); any other
element is pushed.  `acc` is the stack of kept elements, most recent
first. -/
def cleanStep (rooted : Bool) (acc : List String) (e : String) : List String :=
  if e = "" ∨ e = "." then acc
  else if e = ".." then
    match acc with
    | [] => if rooted then [] else [".."]
    | a :: rest => if a = ".." then e :: acc else rest
  else e :: acc

/-- Go `path/filepath.Clean` (Unix separator): split on `/`, process the
elements with `cleanStep`, re-join; an empty result is `.` (or `/` for a
rooted path), and a rooted result keeps its leading `/`. -/
def filepathClean (p : String) : String :=
  let rooted := p.data.head? == some '/'
  let stack := (strSplitOnSlash p).foldl (cleanStep rooted) []
  let body := String.intercalate "/" stack.reverse
  if rooted then
    (if body = "" then "/" else "/" ++ body)
  else
    (if body = "" then "." else body)

/-- Go `filepath.Join` on two components: the non-empty components are
joined with `/` and the result is cleaned; all-empty input yields `""`
without cleaning.  (Go joins from the first non-empty element onward, so
a trailing empty component contributes only a trailing separator, which
`Clean` removes — `Clean a` gives the same result.) -/
def filepathJoin (a b : String) : String :=
  if a = "" ∧ b = "" then ""
  else if a = "" then filepathClean b
  else if b = "" then filepathClean a
  else filepathClean (a ++ "/" ++ b)

/-- Embedding of `WithRequestClientComponent` (util.go).  `lower` is the
oracle for Go `strings.ToLower` (Unicode simple case mapping, an
external stdlib collaborator; `strToLower` is its restriction to ASCII
inputs).  For resource requests the stage lower-cases the User-Agent
header; in edge working mode it truncates at the first `/` (lower-casing
the kept part again); when a convert-GVK override is present in the
context, `partialobjectmetadatas.<version>.<group>` is appended as a
path component via `filepath.Join`.  The return value is the client
component stored in the context (`none` when nothing is stored). -/
def withRequestClientComponent (lower : String → String) (mode : String)
    (info : Option RequestInfo) (userAgentHeader : String)
    (convertGVK : Option GroupVersionKind) : Option String :=
  match info with
  | none => none
  | some i =>
    if i.isResourceRequest then
      let userAgent := lower userAgentHeader
      let userAgent :=
        if mode == workingModeEdge then
          match strSplitOnSlash userAgent with
          | p :: _ => lower p
          | [] => userAgent
        else userAgent
      if userAgent != "" then
        match convertGVK with
        | some gvk =>
          some (filepathJoin userAgent
            (String.intercalate "." ["partialobjectmetadatas", gvk.version, gvk.group]))
        | none => some userAgent
      else none
    else none

/-! ## Token substitution: `WithSaTokenSubstitute` -/

/-- The tenant manager collaborator (`tenant.Interface`), reduced to the
three calls the stage makes: `GetTenantNs`, `GetTenantToken`,
`WaitForCacheSync`. -/
structure TenantMgr where
  tenantNs : String
  tenantToken : String
  cacheSynced : Bool
deriving DecidableEq, Repr

/-- Embedding of `WithSaTokenSubstitute` (util.go).  `oldToken` is the
`util.ParseBearerToken` result on the Authorization header (`""` when the
header carries no well-formed bearer token); `jwtSubject` is the oracle
for `jwt.ParseSigned` followed by `UnsafeClaimsWithoutVerification`,
yielding the subject claim (`none` on a parse failure at either step);
`splitUsername` is the oracle for `serviceaccount.SplitUsername`
(`none` on error).  Returns the Authorization header forwarded
downstream. -/
def withSaTokenSubstitute (tm : TenantMgr)
    (jwtSubject : String → Option String)
    (splitUsername : String → Option (String × String))
    (authHeader oldToken : String) : String :=
  if oldToken != "" then
    match jwtSubject oldToken with
    | none => authHeader
    | some subject =>
      match splitUsername subject with
      | none => authHeader
      | some (tenantNs, _) =>
        if tm.tenantNs != tenantNs && tenantNs == "kube-system" && tm.cacheSynced then
          "Bearer " ++ tm.tenantToken
        else authHeader
  else authHeader

/-! ## The pod-environment object filter (`podenvupdater`) -/

/-- Constant `envVarServiceHost` of the filter. -/
def envVarServiceHost : String := "KUBERNETES_SERVICE_HOST"

/-- Model of `corev1.EnvVar`, reduced to name and value. -/
structure EnvVar where
  name : String
  value : String
deriving DecidableEq, Repr

/-- Model of `corev1.Container`: its environment plus representative other fields. -/
structure Container where
  name : String
  image : String
  env : List EnvVar
deriving DecidableEq, Repr

/-- Model of `corev1.Pod`: the container list plus representative other fields of
metadata, spec and status. -/
structure Pod where
  metaName : String
  metaNamespace : String
  containers : List Container
  restartPolicy : String
  statusPhase : String
deriving DecidableEq, Repr

/-- The inner loop of `mutatePodEnv` over the environment of one container:
set the value of the first entry named `KUBERNETES_SERVICE_HOST` to the
configured host and `break`. -/
def setEnvHost (host : String) : List EnvVar → List EnvVar
  | [] => []
  | e :: rest =>
    if e.name == envVarServiceHost then { e with value := host } :: rest
    else e :: setEnvHost host rest

/-- Embedding of `podEnvFilter.mutatePodEnv`: rewrite the service-host environment
variable in every container, leaving all other fields as they are. -/
def mutatePodEnv (host : String) (p : Pod) : Pod :=
  { p with containers := p.containers.map (fun c => { c with env := setEnvHost host c.env }) }

/-- Model of `runtime.Object` as seen by the type switch of the filter: a `*corev1.Pod`
or any other object (carrying its identity so that passthrough is
observable). -/
inductive RuntimeObject where
  | pod (p : Pod)
  | other (tag : String)
deriving DecidableEq, Repr

/-- Embedding of `podEnvFilter.Filter`: mutate pods, pass every other type through. -/
def podEnvFilterMutate (host : String) : RuntimeObject → RuntimeObject
  | .pod p => .pod (mutatePodEnv host p)
  | .other t => .other t

/-- The condition under which `WithSaTokenSubstitute` rewrites the
Authorization header: the subject claim is extracted, decomposes into a
namespace and account name, the namespace differs from the configured
tenant namespace, equals `kube-system`, and the tenant cache reports
synchronized. -/
def saRewriteCondition (tm : TenantMgr) (jwtSubject : String → Option String)
    (splitUsername : String → Option (String × String)) (oldToken : String) : Prop :=
  ∃ subject ns acct, jwtSubject oldToken = some subject ∧
    splitUsername subject = some (ns, acct) ∧
    tm.tenantNs ≠ ns ∧ ns = "kube-system" ∧ tm.cacheSynced = true

/-- Capacity of the admission pool selected by the pool-scope flag
(`none` when the selected channel is `nil`). -/
def poolCap (limit : Int) (isPoolScope : Bool) : Option Nat :=
  if isPoolScope then some multiplexerCap else ordinaryCap limit

/-- In-flight count of the selected admission pool. -/
def poolInFlight (isPoolScope : Bool) (s : GateState) : Nat :=
  if isPoolScope then s.multiplexerInFlight else s.ordinaryInFlight

/-- Rejection-counter value of the selected admission pool. -/
def poolRejected (isPoolScope : Bool) (s : GateState) : Nat :=
  if isPoolScope then s.rejectedMultiplexer else s.rejectedOrdinary

/-! ## General lemmas about the string and header helpers -/

theorem str_data_eq_nil (a : String) (h : a.data = []) : a = "" := by
  cases a
  simp_all

theorem str_append_ne_empty (a b : String) (h : a ≠ "") : a ++ b ≠ "" := by
  intro hab
  apply h
  have hd : (a ++ b).data = [] := by rw [hab]
  rw [String.data_append] at hd
  exact str_data_eq_nil a (List.append_eq_nil.mp hd).1

theorem str_intercalate_pair (a b : String) :
    String.intercalate "&" [a, b] = a ++ "&" ++ b := rfl

theorem headerGet_headerDel_self (hs : List (String × String)) (key : String) :
    headerGet (headerDel hs key) key = "" := by
  induction hs with
  | nil => rfl
  | cons p rest ih =>
    by_cases h : p.1 = key
    · simpa [headerDel, h] using ih
    · simpa [headerDel, headerGet, h] using ih

theorem headerGet_cons (p : String × String) (rest : List (String × String)) (k : String) :
    headerGet (p :: rest) k = if p.1 = k then p.2 else headerGet rest k := by
  by_cases h : p.1 = k
  · simp [headerGet, List.find?, h]
  · have hb : (p.1 == k) = false := by simp [h]
    simp [headerGet, List.find?, h, hb]

theorem headerDel_cons (p : String × String) (rest : List (String × String)) (key : String) :
    headerDel (p :: rest) key = if p.1 = key then headerDel rest key else p :: headerDel rest key := by
  by_cases h : p.1 = key <;> simp [headerDel, List.filter_cons, h]

theorem headerGet_headerDel_ne (hs : List (String × String)) (key k : String)
    (h : k ≠ key) : headerGet (headerDel hs key) k = headerGet hs k := by
  induction hs with
  | nil => rfl
  | cons p rest ih =>
    rw [headerDel_cons, headerGet_cons]
    by_cases h1 : p.1 = key
    · have h2 : ¬ p.1 = k := by rw [h1]; exact fun hk => h hk.symm
      rw [if_pos h1, if_neg h2]
      exact ih
    · rw [if_neg h1, headerGet_cons]
      by_cases h2 : p.1 = k
      · rw [if_pos h2, if_pos h2]
      · rw [if_neg h2, if_neg h2]
        exact ih

theorem ctxGet_ctxSet_ne (ctx : List (String × String)) (key v k : String)
    (h : k ≠ key) : ctxGet (ctxSet ctx key v) k = ctxGet ctx k := by
  have h2 : ¬ key = k := fun hk => h hk.symm
  simp [ctxSet, ctxGet, h2]

theorem wrap64_eq_self (n : Int) (h : inInt64 n) : wrap64 n = n := by
  unfold inInt64 int64Half at h
  unfold wrap64 int64Half
  omega

theorem inInt64_of_mul_secondNs (n : Int) (h : inInt64 (n * secondNs)) : inInt64 n := by
  unfold inInt64 int64Half secondNs at *
  omega

/-! ## C2: partial-metadata version normalization -/

/-- C2: the claim fails on the code.  For a resource request whose first
Accept clause asks for a `PartialObjectMetadata` representation with
group `meta.k8s.io` and raw version `v1beta1`, the stage stores version
`v1`, not `v1beta1`: the source `switch` tests `Contains(version, "v1")`
before `Contains(version, "v1beta1")`, and any string containing
`v1beta1` also contains `v1`, so the `v1beta1` arm is unreachable. -/
theorem partialObjectMetadata_v1beta1_normalized_to_v1 :
    withPartialObjectMetadataRequest
        (some { isResourceRequest := true, verb := "get", resource := "pods",
                subresource := "", name := "p", apiGroup := "", apiVersion := "v1" })
        [("meta.k8s.io", "v1beta1", "PartialObjectMetadata")] =
      some { group := "meta.k8s.io", version := "v1", kind := "PartialObjectMetadata" } ∧
    ensureValidGroupAndVersion
        { group := "meta.k8s.io", version := "v1beta1", kind := "PartialObjectMetadata" } ≠
      some { group := "meta.k8s.io", version := "v1beta1", kind := "PartialObjectMetadata" } := by
  decide

/-! ## C7: selector extraction -/

/-- C7: for a collection-list request (resource request, verb `list`,
empty target name) with successfully decoded selectors, the stored
selector string is the label selector joined to the field selector with
`&` (label first) when both render non-empty, whichever one renders
non-empty when only one does, and nothing is stored when both render
empty. -/
theorem withListRequestSelector_spec (i : RequestInfo) (l f : Option String)
    (h1 : i.isResourceRequest = true) (h2 : i.verb = "list") (h3 : i.name = "") :
    withListRequestSelector (some i) (some (l, f)) =
      (if l.getD "" ≠ "" ∧ f.getD "" ≠ "" then some (l.getD "" ++ "&" ++ f.getD "")
       else if l.getD "" ≠ "" then some (l.getD "")
       else if f.getD "" ≠ "" then some (f.getD "")
       else none) := by
  cases l with
  | none =>
    cases f with
    | none => simp [withListRequestSelector, selectorString, h1, h2, h3]
    | some fs =>
      by_cases hf : fs = "" <;>
        simp [withListRequestSelector, selectorString, h1, h2, h3, hf, Option.getD]
  | some ls =>
    cases f with
    | none =>
      by_cases hl : ls = "" <;>
        simp [withListRequestSelector, selectorString, h1, h2, h3, hl, Option.getD]
    | some fs =>
      by_cases hl : ls = ""
      · by_cases hf : fs = "" <;>
          simp [withListRequestSelector, selectorString, h1, h2, h3, hl, hf]
      · by_cases hf : fs = ""
        · simp [withListRequestSelector, selectorString, h1, h2, h3, hl, hf]
        · have hne : ls ++ "&" ++ fs ≠ "" :=
            str_append_ne_empty (ls ++ "&") fs (str_append_ne_empty ls "&" hl)
          simp [withListRequestSelector, selectorString, h1, h2, h3, hl, hf,
            str_intercalate_pair, hne]

/-! ## C3: timeout adjustment -/

/-- C3: the claim fails on the code at a decodable input.  For a watch
with decoded timeout-seconds `10000000000` (ten billion, well inside
int64), the Go product `time.Duration(T+15) * time.Second` overflows
int64 and wraps negative, so the `timeout > 0` test fails and no
deadline is installed, while the claim asserts a deadline of `T + 15`
seconds. -/
theorem withRequestTimeout_overflow_ce :
    withRequestTimeout
        (some { isResourceRequest := true, verb := "watch", resource := "pods",
                subresource := "", name := "", apiGroup := "", apiVersion := "v1" })
        (some { timeoutSeconds := some 10000000000 }) none = .noDeadline ∧
    withRequestTimeout
        (some { isResourceRequest := true, verb := "watch", resource := "pods",
                subresource := "", name := "", apiGroup := "", apiVersion := "v1" })
        (some { timeoutSeconds := some 10000000000 }) none ≠
      .deadline ((10000000000 + 15) * 1000000000) := by
  decide

/-- C3 (amended): for a resource-addressed request, provided the
computed nanosecond duration fits the signed 64-bit duration range (no
int64 wrap): a watch with decoded timeout-seconds `T` gets a deadline of
`T + 15` seconds (not installed when that is zero or negative); a list
with decoded timeout-seconds `T` gets a deadline of `T - 2` seconds
exactly when `T > 2`, otherwise none; a get with a parsed raw `timeout`
duration of `Tns` nanoseconds gets a deadline of `Tns` minus two seconds
exactly when `Tns` exceeds two seconds, otherwise none. -/
theorem withRequestTimeout_deadlines (i : RequestInfo) (T Tns : Int)
    (g : Option Int) (o : Option ListOptions) (hres : i.isResourceRequest = true) :
    (i.verb = "watch" → inInt64 ((T + watchTimeoutMargin) * secondNs) →
      withRequestTimeout (some i) (some { timeoutSeconds := some T }) g =
        (if T + watchTimeoutMargin > 0
         then .deadline ((T + watchTimeoutMargin) * secondNs) else .noDeadline)) ∧
    (i.verb = "list" → inInt64 ((T - getAndListTimeoutReduce) * secondNs) →
      withRequestTimeout (some i) (some { timeoutSeconds := some T }) g =
        (if T > getAndListTimeoutReduce
         then .deadline ((T - getAndListTimeoutReduce) * secondNs) else .noDeadline)) ∧
    (i.verb = "get" → inInt64 Tns →
      withRequestTimeout (some i) o (some Tns) =
        (if Tns > getAndListTimeoutReduce * secondNs
         then .deadline (Tns - getAndListTimeoutReduce * secondNs) else .noDeadline)) := by
  refine ⟨fun hv hw => ?_, fun hv hw => ?_, fun hv hw => ?_⟩
  · have h1 : wrap64 (T + watchTimeoutMargin) = T + watchTimeoutMargin :=
      wrap64_eq_self _ (inInt64_of_mul_secondNs _ hw)
    have h2 : wrap64 ((T + watchTimeoutMargin) * secondNs) =
        (T + watchTimeoutMargin) * secondNs := wrap64_eq_self _ hw
    simp only [withRequestTimeout, needModifyTimeoutVerb, hv, hres, h1, h2]
    simp only [watchTimeoutMargin, getAndListTimeoutReduce, secondNs]
    split_ifs <;> first | rfl | omega | (congr 1; omega) | simp_all
  · have h1 : wrap64 (T - getAndListTimeoutReduce) = T - getAndListTimeoutReduce :=
      wrap64_eq_self _ (inInt64_of_mul_secondNs _ hw)
    have h2 : wrap64 ((T - getAndListTimeoutReduce) * secondNs) =
        (T - getAndListTimeoutReduce) * secondNs := wrap64_eq_self _ hw
    simp only [withRequestTimeout, needModifyTimeoutVerb, hv, hres, h1, h2]
    simp only [watchTimeoutMargin, getAndListTimeoutReduce, secondNs]
    split_ifs <;> first | rfl | omega | (congr 1; omega) | simp_all
  · simp only [inInt64, int64Half] at hw
    simp only [withRequestTimeout, needModifyTimeoutVerb, hv, hres,
      getAndListTimeoutReduce, secondNs, wrap64, int64Half]
    split_ifs <;> first | rfl | omega | (congr 1; omega) | simp_all

/-- C3 witness: the bounds hold at the concrete inputs, and a watch with
timeout 300s gets a 315s deadline, a list with timeout 300s gets a 298s
deadline, a get with a raw 10s duration gets an 8s deadline. -/
theorem withRequestTimeout_deadlines_witness :
    inInt64 ((300 + watchTimeoutMargin) * secondNs) ∧
    withRequestTimeout
        (some { isResourceRequest := true, verb := "watch", resource := "pods",
                subresource := "", name := "", apiGroup := "", apiVersion := "v1" })
        (some { timeoutSeconds := some 300 }) none = .deadline (315 * 1000000000) ∧
    withRequestTimeout
        (some { isResourceRequest := true, verb := "list", resource := "pods",
                subresource := "", name := "", apiGroup := "", apiVersion := "v1" })
        (some { timeoutSeconds := some 300 }) none = .deadline (298 * 1000000000) ∧
    withRequestTimeout
        (some { isResourceRequest := true, verb := "get", resource := "pods",
                subresource := "", name := "p", apiGroup := "", apiVersion := "v1" })
        none (some (10 * 1000000000)) = .deadline (8 * 1000000000) := by
  refine ⟨by decide, ?_, ?_, ?_⟩
  · have h := (withRequestTimeout_deadlines
      { isResourceRequest := true, verb := "watch", resource := "pods",
        subresource := "", name := "", apiGroup := "", apiVersion := "v1" }
      300 0 none none rfl).1 rfl (by decide)
    rw [h]; decide
  · have h := (withRequestTimeout_deadlines
      { isResourceRequest := true, verb := "list", resource := "pods",
        subresource := "", name := "", apiGroup := "", apiVersion := "v1" }
      300 0 none none rfl).2.1 rfl (by decide)
    rw [h]; decide
  · have h := (withRequestTimeout_deadlines
      { isResourceRequest := true, verb := "get", resource := "pods",
        subresource := "", name := "p", apiGroup := "", apiVersion := "v1" }
      0 (10 * 1000000000) none none rfl).2.2 rfl (by decide)
    rw [h]; decide

/-! ## C5: the pod-environment filter on an empty configured host -/

/-- C5: the claim fails on the code.  With an empty configured host, the
filter is not a no-op: `mutatePodEnv` has no empty-host guard, so a pod
whose container carries `KUBERNETES_SERVICE_HOST=169.254.2.1` has that
value overwritten with the empty string. -/
theorem podEnvFilter_emptyHost_not_noop :
    podEnvFilterMutate ""
        (.pod { metaName := "p", metaNamespace := "default",
                containers := [{ name := "test-container", image := "img",
                                 env := [{ name := "KUBERNETES_SERVICE_HOST",
                                           value := "169.254.2.1" },
                                         { name := "OTHER_ENV_VAR",
                                           value := "some-value" }] }],
                restartPolicy := "Always", statusPhase := "Running" }) =
      .pod { metaName := "p", metaNamespace := "default",
             containers := [{ name := "test-container", image := "img",
                              env := [{ name := "KUBERNETES_SERVICE_HOST", value := "" },
                                      { name := "OTHER_ENV_VAR",
                                        value := "some-value" }] }],
             restartPolicy := "Always", statusPhase := "Running" } ∧
    podEnvFilterMutate ""
        (.pod { metaName := "p", metaNamespace := "default",
                containers := [{ name := "test-container", image := "img",
                                 env := [{ name := "KUBERNETES_SERVICE_HOST",
                                           value := "169.254.2.1" },
                                         { name := "OTHER_ENV_VAR",
                                           value := "some-value" }] }],
                restartPolicy := "Always", statusPhase := "Running" }) ≠
      .pod { metaName := "p", metaNamespace := "default",
             containers := [{ name := "test-container", image := "img",
                              env := [{ name := "KUBERNETES_SERVICE_HOST",
                                        value := "169.254.2.1" },
                                      { name := "OTHER_ENV_VAR",
                                        value := "some-value" }] }],
             restartPolicy := "Always", statusPhase := "Running" } := by
  decide

/-! ## C8: filter idempotence and passthrough -/

theorem setEnvHost_idem (host : String) (l : List EnvVar) :
    setEnvHost host (setEnvHost host l) = setEnvHost host l := by
  induction l with
  | nil => rfl
  | cons e rest ih =>
    by_cases h : e.name = envVarServiceHost
    · simp [setEnvHost, h]
    · simp [setEnvHost, h, ih]

theorem mutatePodEnv_idem (host : String) (p : Pod) :
    mutatePodEnv host (mutatePodEnv host p) = mutatePodEnv host p := by
  simp [mutatePodEnv, Function.comp, setEnvHost_idem]

/-- C8: the mutate function of the filter is idempotent on every object, and
is the identity on every object of an unsupported type. -/
theorem podEnvFilterMutate_idem_and_passthrough (host : String) (obj : RuntimeObject) :
    podEnvFilterMutate host (podEnvFilterMutate host obj) = podEnvFilterMutate host obj ∧
    (∀ t, podEnvFilterMutate host (.other t) = .other t) := by
  constructor
  · cases obj with
    | pod p => simp [podEnvFilterMutate, mutatePodEnv_idem]
    | other t => rfl
  · intro t
    rfl

/-! ## C6: service-account token substitution -/

/-- C6: for a request carrying a well-formed bearer token, the forwarded
Authorization header is the cached tenant credential as
`Bearer <token>` when the rewrite condition holds (subject decomposes,
its namespace differs from the configured tenant namespace, equals
`kube-system`, and the tenant cache is synchronized), and is the original
header in every other case, including a parse failure at any stage. -/
theorem withSaTokenSubstitute_spec (tm : TenantMgr)
    (jwtSubject : String → Option String)
    (splitUsername : String → Option (String × String))
    (authHeader oldToken : String) (htok : oldToken ≠ "") :
    (withSaTokenSubstitute tm jwtSubject splitUsername authHeader oldToken =
        "Bearer " ++ tm.tenantToken ∧
      saRewriteCondition tm jwtSubject splitUsername oldToken) ∨
    (withSaTokenSubstitute tm jwtSubject splitUsername authHeader oldToken = authHeader ∧
      ¬ saRewriteCondition tm jwtSubject splitUsername oldToken) := by
  have hbne : (oldToken != "") = true := by simp [htok]
  cases hj : jwtSubject oldToken with
  | none =>
    right
    refine ⟨by simp [withSaTokenSubstitute, hbne, hj], ?_⟩
    rintro ⟨subject, ns, acct, hs, -⟩
    rw [hj] at hs
    exact Option.noConfusion hs
  | some subject =>
    cases hsp : splitUsername subject with
    | none =>
      right
      refine ⟨by simp [withSaTokenSubstitute, hbne, hj, hsp], ?_⟩
      rintro ⟨subject2, ns, acct, hs, hsp2, -⟩
      rw [hj] at hs
      injection hs with hs
      subst hs
      rw [hsp] at hsp2
      exact Option.noConfusion hsp2
    | some pr =>
      obtain ⟨ns, acct⟩ := pr
      by_cases hcond : (tm.tenantNs != ns && ns == "kube-system" && tm.cacheSynced) = true
      · left
        have hc := hcond
        simp only [Bool.and_eq_true, bne_iff_ne, beq_iff_eq] at hc
        refine ⟨by simp [withSaTokenSubstitute, hbne, hj, hsp, hcond], ?_⟩
        exact ⟨subject, ns, acct, hj, hsp, hc.1.1, hc.1.2, hc.2⟩
      · right
        refine ⟨by simp [withSaTokenSubstitute, hbne, hj, hsp, hcond], ?_⟩
        rintro ⟨subject2, ns2, acct2, hs, hsp2, hne, hks, hsync⟩
        rw [hj] at hs
        injection hs with hs
        subst hs
        rw [hsp] at hsp2
        injection hsp2 with hsp2
        injection hsp2 with h1 h2
        subst h1
        apply hcond
        simp only [Bool.and_eq_true, bne_iff_ne, beq_iff_eq]
        exact ⟨⟨hne, hks⟩, hsync⟩

/-- C6 witness: the spec scenario — subject
`system:serviceaccount:kube-system:default`, tenant namespace `tenant-a`,
cache synchronized and holding token `T2` — rewrites the header to
`Bearer T2`. -/
theorem withSaTokenSubstitute_spec_witness :
    withSaTokenSubstitute { tenantNs := "tenant-a", tenantToken := "T2", cacheSynced := true }
        (fun _ => some "system:serviceaccount:kube-system:default")
        (fun _ => some ("kube-system", "default"))
        "Bearer T1" "T1" = "Bearer T2" := by
  rcases withSaTokenSubstitute_spec
      { tenantNs := "tenant-a", tenantToken := "T2", cacheSynced := true }
      (fun _ => some "system:serviceaccount:kube-system:default")
      (fun _ => some ("kube-system", "default"))
      "Bearer T1" "T1" (by decide) with ⟨h, -⟩ | ⟨-, hn⟩
  · exact h
  · exact absurd ⟨"system:serviceaccount:kube-system:default", "kube-system", "default",
      rfl, rfl, by decide, rfl, rfl⟩ hn

/-! ## C10: cache-directive capture -/

/-- C10: for every resource-addressed request, the `Edge-Cache` header is
deleted before forwarding regardless of its value; the can-cache flag is
stored in the context exactly when the lower-cased header value is
`"true"` (the context is untouched otherwise); and no other request
header or context key is changed by the stage. -/
theorem withCacheHeaderCheck_spec (i : RequestInfo) (hs ctx : List (String × String))
    (hres : i.isResourceRequest = true) :
    (withCacheHeaderCheck (some i) hs ctx).1 = headerDel hs canCacheHeader ∧
    headerGet (withCacheHeaderCheck (some i) hs ctx).1 canCacheHeader = "" ∧
    (∀ k, k ≠ canCacheHeader →
      headerGet (withCacheHeaderCheck (some i) hs ctx).1 k = headerGet hs k) ∧
    (if strToLower (headerGet hs canCacheHeader) = "true"
     then ctxGet (withCacheHeaderCheck (some i) hs ctx).2 reqCanCacheKey = some "true"
     else (withCacheHeaderCheck (some i) hs ctx).2 = ctx) ∧
    (∀ k, k ≠ reqCanCacheKey →
      ctxGet (withCacheHeaderCheck (some i) hs ctx).2 k = ctxGet ctx k) := by
  by_cases ht : strToLower (headerGet hs canCacheHeader) = "true"
  · have hsnd : (withCacheHeaderCheck (some i) hs ctx).2 = ctxSet ctx reqCanCacheKey "true" := by
      simp [withCacheHeaderCheck, hres, ht]
    refine ⟨by simp [withCacheHeaderCheck, hres, ht], ?_, ?_, ?_, ?_⟩
    · rw [show (withCacheHeaderCheck (some i) hs ctx).1 = headerDel hs canCacheHeader by
        simp [withCacheHeaderCheck, hres, ht]]
      exact headerGet_headerDel_self hs canCacheHeader
    · intro k hk
      rw [show (withCacheHeaderCheck (some i) hs ctx).1 = headerDel hs canCacheHeader by
        simp [withCacheHeaderCheck, hres, ht]]
      exact headerGet_headerDel_ne hs canCacheHeader k hk
    · rw [if_pos ht, hsnd]
      simp [ctxSet, ctxGet, List.find?]
    · intro k hk
      rw [hsnd]
      exact ctxGet_ctxSet_ne ctx reqCanCacheKey "true" k hk
  · have hsnd : (withCacheHeaderCheck (some i) hs ctx).2 = ctx := by
      simp [withCacheHeaderCheck, hres, ht]
    refine ⟨by simp [withCacheHeaderCheck, hres, ht], ?_, ?_, ?_, ?_⟩
    · rw [show (withCacheHeaderCheck (some i) hs ctx).1 = headerDel hs canCacheHeader by
        simp [withCacheHeaderCheck, hres, ht]]
      exact headerGet_headerDel_self hs canCacheHeader
    · intro k hk
      rw [show (withCacheHeaderCheck (some i) hs ctx).1 = headerDel hs canCacheHeader by
        simp [withCacheHeaderCheck, hres, ht]]
      exact headerGet_headerDel_ne hs canCacheHeader k hk
    · rw [if_neg ht, hsnd]
    · intro k _
      rw [hsnd]

/-- C10 witness: a concrete resource request whose `Edge-Cache` header is
`TRUE`: the header is removed, the other header survives, and the
can-cache flag is stored. -/
theorem withCacheHeaderCheck_spec_witness :
    (withCacheHeaderCheck
        (some { isResourceRequest := true, verb := "get", resource := "pods",
                subresource := "", name := "p", apiGroup := "", apiVersion := "v1" })
        [(canCacheHeader, "TRUE"), ("Accept", "application/json")] []).1 =
      [("Accept", "application/json")] ∧
    ctxGet (withCacheHeaderCheck
        (some { isResourceRequest := true, verb := "get", resource := "pods",
                subresource := "", name := "p", apiGroup := "", apiVersion := "v1" })
        [(canCacheHeader, "TRUE"), ("Accept", "application/json")] []).2 reqCanCacheKey =
      some "true" ∧
    headerGet (withCacheHeaderCheck
        (some { isResourceRequest := true, verb := "get", resource := "pods",
                subresource := "", name := "p", apiGroup := "", apiVersion := "v1" })
        [(canCacheHeader, "TRUE"), ("Accept", "application/json")] []).1 "Accept" =
      "application/json" := by
  obtain ⟨h1, h2, h3, h4, h5⟩ := withCacheHeaderCheck_spec
    { isResourceRequest := true, verb := "get", resource := "pods",
      subresource := "", name := "p", apiGroup := "", apiVersion := "v1" }
    [(canCacheHeader, "TRUE"), ("Accept", "application/json")] [] rfl
  refine ⟨h1.trans (by decide), ?_, (h3 "Accept" (by decide)).trans (by decide)⟩
  rw [if_pos (by decide)] at h4
  exact h4

/-! ## C1: the ordinary gate with a non-positive pool size -/

/-- C1: the claim fails on the code.  With ordinary-pool size `0`, even
the very first non-pool-scope request (zero ordinary requests in flight)
is not admitted: the ordinary channel is `nil`, the non-blocking send
can never fire, and the request is rejected with a 429 too-many-requests
response. -/
theorem maxInFlight_nonpositive_rejects_ce :
    (withMaxInFlightEnter 0 false ⟨0, 0, 0, 0⟩).2.handlerInvoked = false ∧
    (withMaxInFlightEnter 0 false ⟨0, 0, 0, 0⟩).2.status = some 429 := by
  decide

/-- C1 (amended): for the admission-control stage constructed with a
non-positive ordinary-pool size, the ordinary channel is never allocated
and the non-blocking send can never succeed, so every request that is
not pool-scope is rejected with a too-many-requests response
(`Retry-After: 1`, ordinary rejection counter incremented) and the
downstream handler is never invoked, regardless of how many ordinary
requests are in flight. -/
theorem maxInFlight_nonpositive_rejects (limit : Int) (s : GateState) (h : limit ≤ 0) :
    (withMaxInFlightEnter limit false s).2.handlerInvoked = false ∧
    (withMaxInFlightEnter limit false s).2.status = some 429 ∧
    (withMaxInFlightEnter limit false s).2.retryAfter = some "1" ∧
    (withMaxInFlightEnter limit false s).1 =
      { s with rejectedOrdinary := s.rejectedOrdinary + 1 } := by
  have hno : ordinaryCap limit = none := by
    unfold ordinaryCap
    rw [if_neg (by omega)]
  simp [withMaxInFlightEnter, trySend, hno]

/-- C1 witness: ordinary-pool size `-1`, seven ordinary requests in
flight: the next non-pool-scope request is rejected and the ordinary
rejection counter goes from 3 to 4. -/
theorem maxInFlight_nonpositive_rejects_witness :
    (-1 : Int) ≤ 0 ∧
    (withMaxInFlightEnter (-1) false ⟨7, 0, 3, 0⟩).2.handlerInvoked = false ∧
    (withMaxInFlightEnter (-1) false ⟨7, 0, 3, 0⟩).2.status = some 429 ∧
    (withMaxInFlightEnter (-1) false ⟨7, 0, 3, 0⟩).1 = ⟨7, 0, 4, 0⟩ := by
  obtain ⟨h1, h2, h3, h4⟩ := maxInFlight_nonpositive_rejects (-1) ⟨7, 0, 3, 0⟩ (by decide)
  exact ⟨by decide, h1, h2, by simpa using h4⟩

/-! ## C4: admission pool behaviour at and below capacity -/

/-- C4: for the admission pool selected by the pool-scope flag, with
capacity `N`: while fewer than `N` requests are in flight a request is
admitted (handler invoked, slot taken, no rejection counted), and
releasing the slot on completion restores the state exactly, so no
capacity leaks; when the pool is full the request is terminated with a
429 response carrying `Retry-After: 1`, the pool-specific rejection
counter is incremented (the counter of the other pool is untouched), and the
handler is not invoked. -/
theorem maxInFlight_pool_spec (limit : Int) (isPoolScope : Bool) (s : GateState) (N : Nat)
    (hcap : poolCap limit isPoolScope = some N) :
    (poolInFlight isPoolScope s < N →
      (withMaxInFlightEnter limit isPoolScope s).2.handlerInvoked = true ∧
      (withMaxInFlightEnter limit isPoolScope s).2.status = none ∧
      poolInFlight isPoolScope (withMaxInFlightEnter limit isPoolScope s).1 =
        poolInFlight isPoolScope s + 1 ∧
      poolRejected isPoolScope (withMaxInFlightEnter limit isPoolScope s).1 =
        poolRejected isPoolScope s ∧
      withMaxInFlightExit isPoolScope (withMaxInFlightEnter limit isPoolScope s).1 = s) ∧
    (N ≤ poolInFlight isPoolScope s →
      (withMaxInFlightEnter limit isPoolScope s).2.handlerInvoked = false ∧
      (withMaxInFlightEnter limit isPoolScope s).2.status = some 429 ∧
      (withMaxInFlightEnter limit isPoolScope s).2.retryAfter = some "1" ∧
      poolRejected isPoolScope (withMaxInFlightEnter limit isPoolScope s).1 =
        poolRejected isPoolScope s + 1 ∧
      poolRejected (!isPoolScope) (withMaxInFlightEnter limit isPoolScope s).1 =
        poolRejected (!isPoolScope) s ∧
      poolInFlight isPoolScope (withMaxInFlightEnter limit isPoolScope s).1 =
        poolInFlight isPoolScope s) := by
  cases isPoolScope with
  | true =>
    have hN : multiplexerCap = N := by
      simpa [poolCap] using hcap
    subst hN
    constructor
    · intro hlt
      simp [poolInFlight] at hlt
      simp [withMaxInFlightEnter, trySend, hlt, poolInFlight, poolRejected,
        withMaxInFlightExit]
    · intro hge
      simp [poolInFlight] at hge
      have hfull : ¬ s.multiplexerInFlight < multiplexerCap := by omega
      simp [withMaxInFlightEnter, trySend, hfull, poolInFlight, poolRejected]
  | false =>
    by_cases hpos : limit > 0
    · have hNt : limit.toNat = N := by
        simpa [poolCap, ordinaryCap, hpos] using hcap
      constructor
      · intro hlt
        simp [poolInFlight] at hlt
        have hsend : s.ordinaryInFlight < limit.toNat := by omega
        simp [withMaxInFlightEnter, trySend, ordinaryCap, hpos, hsend, poolInFlight,
          poolRejected, withMaxInFlightExit]
      · intro hge
        simp [poolInFlight] at hge
        have hsend : ¬ s.ordinaryInFlight < limit.toNat := by omega
        simp [withMaxInFlightEnter, trySend, ordinaryCap, hpos, hsend, poolInFlight,
          poolRejected]
    · exfalso
      simp [poolCap, ordinaryCap, hpos] at hcap

/-- C4 witness: the ordinary pool with capacity 2: with one request in
flight, the next is admitted and its release restores the state; with two
in flight, the next is rejected with 429/`Retry-After: 1` and the
ordinary rejection counter goes from 5 to 6. -/
theorem maxInFlight_pool_spec_witness :
    (withMaxInFlightEnter 2 false ⟨1, 0, 0, 0⟩).2.handlerInvoked = true ∧
    withMaxInFlightExit false (withMaxInFlightEnter 2 false ⟨1, 0, 0, 0⟩).1 = ⟨1, 0, 0, 0⟩ ∧
    (withMaxInFlightEnter 2 false ⟨2, 0, 5, 0⟩).2.handlerInvoked = false ∧
    (withMaxInFlightEnter 2 false ⟨2, 0, 5, 0⟩).2.status = some 429 ∧
    (withMaxInFlightEnter 2 false ⟨2, 0, 5, 0⟩).2.retryAfter = some "1" ∧
    (withMaxInFlightEnter 2 false ⟨2, 0, 5, 0⟩).1.rejectedOrdinary = 6 := by
  obtain ⟨hadm, -⟩ := maxInFlight_pool_spec 2 false ⟨1, 0, 0, 0⟩ 2 (by decide)
  obtain ⟨h1, -, -, -, h5⟩ := hadm (by decide)
  obtain ⟨-, hrej⟩ := maxInFlight_pool_spec 2 false ⟨2, 0, 5, 0⟩ 2 (by decide)
  obtain ⟨g1, g2, g3, g4, -, -⟩ := hrej (by decide)
  exact ⟨h1, h5, g1, g2, g3, by simpa [poolRejected] using g4⟩

/-! ## C9: client-component extraction -/

/-- C9: the claim fails on the code.  The truncation of the User-Agent at
the first `/` happens only in edge working mode: in cloud working mode
the same resource request with User-Agent `Kubelet/1.0 (linux/amd64)`
derives the full lower-cased string, not `kubelet` (the User-Agent is
ASCII, so the `strToLower` instance of the lowering oracle is exact
here). -/
theorem clientComponent_truncation_ce :
    withRequestClientComponent strToLower "cloud"
        (some { isResourceRequest := true, verb := "get", resource := "nodes",
                subresource := "", name := "n", apiGroup := "", apiVersion := "v1" })
        "Kubelet/1.0 (linux/amd64)" none ≠ some "kubelet" ∧
    withRequestClientComponent strToLower "cloud"
        (some { isResourceRequest := true, verb := "get", resource := "nodes",
                subresource := "", name := "n", apiGroup := "", apiVersion := "v1" })
        "Kubelet/1.0 (linux/amd64)" none = some "kubelet/1.0 (linux/amd64)" := by
  decide

theorem splitOnSlashAux_head (l : List Char) :
    ∃ t, splitOnSlashAux l = l.takeWhile (fun c => !(c == '/')) :: t := by
  induction l with
  | nil => exact ⟨[], rfl⟩
  | cons c rest ih =>
    obtain ⟨t, ht⟩ := ih
    by_cases h : c = '/'
    · exact ⟨splitOnSlashAux rest, by simp [splitOnSlashAux, h, List.takeWhile_cons]⟩
    · exact ⟨t, by simp [splitOnSlashAux, h, ht, List.takeWhile_cons]⟩

theorem strSplitOnSlash_head (s : String) :
    ∃ t, strSplitOnSlash s =
      (⟨s.data.takeWhile (fun c => !(c == '/'))⟩ : String) :: t := by
  obtain ⟨t, ht⟩ := splitOnSlashAux_head s.data
  exact ⟨t.map (fun l => ⟨l⟩), by simp [strSplitOnSlash, ht]⟩

theorem str_intercalate_triple (a b c : String) :
    String.intercalate "." [a, b, c] = a ++ "." ++ b ++ "." ++ c := rfl

theorem join_arg_pom (a v g : String) :
    a ++ "/" ++ String.intercalate "." ["partialobjectmetadatas", v, g] =
      a ++ "/partialobjectmetadatas." ++ v ++ "." ++ g := by
  rw [str_intercalate_triple]
  simp only [String.append_assoc]
  congr 1

theorem filepathJoin_clean (a b : String) (ha : a ≠ "") (hb : b ≠ "") :
    filepathJoin a b = filepathClean (a ++ "/" ++ b) := by
  unfold filepathJoin
  rw [if_neg (fun h => ha h.1), if_neg ha, if_neg hb]

/-- C9 (amended): in edge working mode, for every resource-addressed
request the derived client component is the lower-cased User-Agent
truncated at the first `/` (the truncated part is lower-cased again);
when the partial-metadata override is set in context, the suffix
`partialobjectmetadatas.<version>.<group>` is appended as a path
component through `filepath.Join`, whose path cleaning applies (so a
truncated User-Agent `.` yields exactly the suffix); nothing is stored
when the truncation result is empty.  `lower` is the `strings.ToLower`
oracle; the second conjunct only needs that it fixes `"."`. -/
theorem clientComponent_edge_spec (lower : String → String) (i : RequestInfo)
    (ua : String) (gvk : Option GroupVersionKind)
    (hres : i.isResourceRequest = true) (hdot : lower "." = ".") :
    (withRequestClientComponent lower workingModeEdge (some i) ua gvk =
      (let trunc := lower ⟨(lower ua).data.takeWhile (fun c => !(c == '/'))⟩
       if trunc = "" then none
       else match gvk with
         | some g =>
             some (filepathClean
               (trunc ++ "/partialobjectmetadatas." ++ g.version ++ "." ++ g.group))
         | none => some trunc)) ∧
    (withRequestClientComponent lower workingModeEdge (some i) "."
        (some { group := "meta.k8s.io", version := "v1",
                kind := "PartialObjectMetadata" }) =
      some "partialobjectmetadatas.v1.meta.k8s.io") := by
  constructor
  · obtain ⟨t, ht⟩ := strSplitOnSlash_head (lower ua)
    simp only [withRequestClientComponent, hres, if_pos rfl, ht]
    by_cases htr : lower ⟨(lower ua).data.takeWhile (fun c => !(c == '/'))⟩ = ""
    · simp [htr]
    · cases gvk with
      | none => simp [htr]
      | some g =>
        have hb : String.intercalate "." ["partialobjectmetadatas", g.version, g.group] ≠ "" := by
          rw [str_intercalate_triple]
          exact str_append_ne_empty _ _
            (str_append_ne_empty _ _ (str_append_ne_empty _ _ (by decide)))
        simp [htr, filepathJoin_clean _ _ htr hb, join_arg_pom]
  · have hsplit : strSplitOnSlash "." = ["."] := rfl
    simp only [withRequestClientComponent, hres, if_pos rfl, hdot, hsplit]
    decide

/-- C9 witness: with the ASCII lowering instance, in edge working mode,
User-Agent `Kubelet/1.0 (linux/amd64)` derives component `kubelet`;
User-Agent `kubelet` with the (meta.k8s.io, v1) override derives
`kubelet/partialobjectmetadatas.v1.meta.k8s.io`; and User-Agent `.` with
the override derives `partialobjectmetadatas.v1.meta.k8s.io` (path
cleaning). -/
theorem clientComponent_edge_spec_witness :
    withRequestClientComponent strToLower workingModeEdge
        (some { isResourceRequest := true, verb := "get", resource := "nodes",
                subresource := "", name := "n", apiGroup := "", apiVersion := "v1" })
        "Kubelet/1.0 (linux/amd64)" none = some "kubelet" ∧
    withRequestClientComponent strToLower workingModeEdge
        (some { isResourceRequest := true, verb := "get", resource := "nodes",
                subresource := "", name := "n", apiGroup := "", apiVersion := "v1" })
        "kubelet" (some { group := "meta.k8s.io", version := "v1",
                          kind := "PartialObjectMetadata" }) =
      some "kubelet/partialobjectmetadatas.v1.meta.k8s.io" ∧
    withRequestClientComponent strToLower workingModeEdge
        (some { isResourceRequest := true, verb := "get", resource := "nodes",
                subresource := "", name := "n", apiGroup := "", apiVersion := "v1" })
        "." (some { group := "meta.k8s.io", version := "v1",
                    kind := "PartialObjectMetadata" }) =
      some "partialobjectmetadatas.v1.meta.k8s.io" := by
  refine ⟨?_, ?_, ?_⟩
  · rw [(clientComponent_edge_spec strToLower _ _ _ rfl (by decide)).1]
    decide
  · rw [(clientComponent_edge_spec strToLower _ _ _ rfl (by decide)).1]
    decide
  · exact (clientComponent_edge_spec strToLower
      { isResourceRequest := true, verb := "get", resource := "nodes",
        subresource := "", name := "n", apiGroup := "", apiVersion := "v1" }
      "x" none rfl (by decide)).2

/-- C7 witness: both selectors present and non-empty on a concrete list
request. -/
theorem withListRequestSelector_spec_witness :
    withListRequestSelector
        (some { isResourceRequest := true, verb := "list", resource := "pods",
                subresource := "", name := "", apiGroup := "", apiVersion := "v1" })
        (some (some "app=nginx", some "spec.nodeName=edge-0")) =
      some "app=nginx&spec.nodeName=edge-0" := by
  have h := withListRequestSelector_spec
    { isResourceRequest := true, verb := "list", resource := "pods",
      subresource := "", name := "", apiGroup := "", apiVersion := "v1" }
    (some "app=nginx") (some "spec.nodeName=edge-0") rfl rfl rfl
  rw [h]
  decide
